import Mathlib

set_option maxRecDepth 8000

/-!
Shallow embedding of the barrister2 / pulserpc Python runtime core:
struct field resolution (`types.py`: `find_struct`, `find_enum`,
`get_struct_fields`) and recursive value validation (`validation.py`:
`validate_string` .. `validate_type`).

Python values decoded from JSON are modelled by the closed inductive
`Value`; schema dictionaries by association lists; raised exceptions by
`Except VErr Unit` where each `VErr` constructor corresponds to one
`raise` site of the source.  The schema-directed recursion of
`validate_type`/`validate_struct` and of `get_struct_fields` is not
structurally decreasing (Python recursion is unbounded on cyclic
schemas), so both take an explicit fuel parameter; theorems are stated
at `fuel + 1` (or quantify the fuel), never relying on the exhaustion
branch.
-/

/-- JSON-like dynamic value, as the Python runtime sees it
(`None`, `bool`, `int`, `float`, `str`, `list`, `dict`).  Dict entries
keep insertion order; keys may be arbitrary values, as in Python. -/
inductive Value : Type where
  | vnull : Value
  | vbool : Bool → Value
  | vint : Int → Value
  | vfloat : Rat → Value
  | vstr : String → Value
  | vlist : List Value → Value
  | vdict : List (Value × Value) → Value

/-- Python `value is None`. -/
def Value.isNull : Value → Bool
  | .vnull => true
  | _ => false

/-- A type-definition dict of the generated schema: exactly one of the
keys `builtIn`, `array`, `mapValue`, `userDefined` is populated. -/
inductive TypeDef : Type where
  | builtin : String → TypeDef
  | array : TypeDef → TypeDef
  | map : TypeDef → TypeDef
  | userDefined : String → TypeDef

/-- A field dict: `{'name': .., 'type': .., 'optional': ..}`; the
`optional` key defaults to `False` (`field.get('optional', False)`),
which the `Bool` field absorbs. -/
structure FieldDef : Type where
  name : String
  type : TypeDef
  optional : Bool

/-- A struct dict: optional `'extends'` key (parent struct name) and a
`'fields'` list (`struct_def.get('fields', [])`).  `extends` is a Lean
keyword, hence `extendsName`. -/
structure StructDef : Type where
  extendsName : Option String
  fields : List FieldDef

/-- One entry of an enum definition's `values` list (a dict with a
`name` key). -/
structure EnumValue : Type where
  name : String

/-- An enum dict: `{'values': [..]}` (`enum_def.get('values', [])`). -/
structure EnumDef : Type where
  values : List EnumValue

/-- `types.py` `find_struct`: `all_structs.get(struct_name)`, with the
dict modelled as an association list (keys unique in a Python dict, so
first-match lookup agrees). -/
def find_struct (struct_name : String) : List (String × StructDef) → Option StructDef
  | [] => none
  | (k, sd) :: rest => if k = struct_name then some sd else find_struct struct_name rest

/-- `types.py` `find_enum`: `all_enums.get(enum_name)`. -/
def find_enum (enum_name : String) : List (String × EnumDef) → Option EnumDef
  | [] => none
  | (k, ed) :: rest => if k = enum_name then some ed else find_enum enum_name rest

/-- The override loop of `get_struct_fields`:
`for i, f in enumerate(fields): if f['name'] == field['name']:
fields[i] = field; break` — replace the first entry whose name matches. -/
def replaceFirst (fields : List FieldDef) (field : FieldDef) : List FieldDef :=
  match fields with
  | [] => []
  | f :: rest =>
      if f.name == field.name then field :: rest else f :: replaceFirst rest field

/-- One iteration of the field loop of `get_struct_fields`: append the
field if its name is not yet present, otherwise override in place.  The
Python code keeps a `field_names` set as it goes; that set always equals
the set of names of the accumulated list, so recomputing the membership
test is equivalent. -/
def addField (fields : List FieldDef) (field : FieldDef) : List FieldDef :=
  if fields.any (fun f => f.name == field.name) then replaceFirst fields field
  else fields ++ [field]

/-- `types.py` `get_struct_fields`: resolve the parent's fields first
(recursively, following `extends`), then fold the struct's own fields
through `addField`.  Python's `if struct_def.get('extends'):` is a
truthiness test, so an empty-string parent name is skipped exactly like
an absent one.  `fuel` bounds the (in Python unbounded) recursion on the
extends chain; fuel `0` is never reached on an acyclic schema when the
fuel exceeds the chain length. -/
def get_struct_fields (fuel : Nat) (struct_name : String)
    (all_structs : List (String × StructDef)) : List FieldDef :=
  match fuel with
  | 0 => []
  | fuel + 1 =>
    match find_struct struct_name all_structs with
    | none => []
    | some struct_def =>
      let parent :=
        match struct_def.extendsName with
        | some p => if p = "" then [] else get_struct_fields fuel p all_structs
        | none => []
      struct_def.fields.foldl addField parent

/-- The parent-fields part of `get_struct_fields`, as a standalone
definition for use in theorem statements. -/
def parent_fields (fuel : Nat) (struct_def : StructDef)
    (all_structs : List (String × StructDef)) : List FieldDef :=
  match struct_def.extendsName with
  | some p => if p = "" then [] else get_struct_fields fuel p all_structs
  | none => []

/-- Validation errors; one constructor per `raise` site of
`validation.py` (message strings dropped, their data kept). -/
inductive VErr : Type where
  | expectedString : VErr
  | expectedInt : VErr
  | expectedFloat : VErr
  | expectedBool : VErr
  | expectedList : VErr
  | arrayElem : Nat → VErr → VErr
  | expectedDict : VErr
  | mapKeyNotString : VErr
  | mapValue : String → VErr → VErr
  | enumNotString : String → VErr
  | invalidEnumValue : String → String → VErr
  | structNotDict : String → VErr
  | missingRequiredField : String → String → VErr
  | fieldNullNotAllowed : String → String → VErr
  | fieldFailed : String → String → VErr → VErr
  | noneNotAllowed : VErr
  | unknownUserDefined : String → VErr
  | invalidTypeDef : VErr
  | outOfFuel : VErr

/-- `validate_string`: `isinstance(value, str)`. -/
def validate_string : Value → Except VErr Unit
  | .vstr _ => .ok ()
  | _ => .error .expectedString

/-- `validate_int`: `isinstance(value, int)`.  In Python `bool` is a
subclass of `int`, so `isinstance(True, int)` is `True` and boolean
values pass this check. -/
def validate_int : Value → Except VErr Unit
  | .vint _ => .ok ()
  | .vbool _ => .ok ()
  | _ => .error .expectedInt

/-- `validate_float`: `isinstance(value, (int, float))`; booleans pass
for the same subclassing reason as in `validate_int`. -/
def validate_float : Value → Except VErr Unit
  | .vint _ => .ok ()
  | .vfloat _ => .ok ()
  | .vbool _ => .ok ()
  | _ => .error .expectedFloat

/-- `validate_bool`: `isinstance(value, bool)` (an `int` is not an
instance of `bool`). -/
def validate_bool : Value → Except VErr Unit
  | .vbool _ => .ok ()
  | _ => .error .expectedBool

/-- The `for i, elem in enumerate(value)` loop of `validate_array`:
each failing element's error is wrapped with its zero-based index, and
the first failure aborts the loop (exception propagation). -/
def validate_elems (element_validator : Value → Except VErr Unit) (i : Nat) :
    List Value → Except VErr Unit
  | [] => .ok ()
  | v :: rest =>
      match element_validator v with
      | .ok _ => validate_elems element_validator (i + 1) rest
      | .error e => .error (.arrayElem i e)

/-- `validate_array`: `isinstance(value, list)` then the element loop. -/
def validate_array (value : Value) (element_validator : Value → Except VErr Unit) :
    Except VErr Unit :=
  match value with
  | .vlist xs => validate_elems element_validator 0 xs
  | _ => .error .expectedList

/-- The `for key, val in value.items()` loop of `validate_map`: the key
must be a string (checked first, independent of the value), then the
value is validated, a failure being wrapped with the offending key. -/
def validate_map_items (value_validator : Value → Except VErr Unit) :
    List (Value × Value) → Except VErr Unit
  | [] => .ok ()
  | (key, val) :: rest =>
      match key with
      | .vstr s =>
          match value_validator val with
          | .ok _ => validate_map_items value_validator rest
          | .error e => .error (.mapValue s e)
      | _ => .error .mapKeyNotString

/-- `validate_map`: `isinstance(value, dict)` then the items loop. -/
def validate_map (value : Value) (value_validator : Value → Except VErr Unit) :
    Except VErr Unit :=
  match value with
  | .vdict kvs => validate_map_items value_validator kvs
  | _ => .error .expectedDict

/-- `validate_enum`: value must be a string and a member of the allowed
values (exact match). -/
def validate_enum (value : Value) (enum_name : String) (allowed_values : List String) :
    Except VErr Unit :=
  match value with
  | .vstr s =>
      if allowed_values.contains s then .ok ()
      else .error (.invalidEnumValue enum_name s)
  | _ => .error (.enumNotString enum_name)

/-- Python `field_name in value` / `value[field_name]` for a dict value:
first entry whose key is the string `field_name` (a string compares
equal only to strings, so non-string keys never match). -/
def dictGetStr (kvs : List (Value × Value)) (field_name : String) : Option Value :=
  match kvs with
  | [] => none
  | (k, v) :: rest =>
      match k with
      | .vstr s => if s = field_name then some v else dictGetStr rest field_name
      | _ => dictGetStr rest field_name

/-- The body of the field loop of `validate_struct` for one field:
absent key → error unless optional; present `None` → error unless
optional; otherwise validate the field value through the field
validator closure (`lambda v: validate_type(v, field_type, ..., is_optional)`,
abstracted as `vt`), wrapping a failure with field and struct name. -/
def checkField (vt : Value → TypeDef → Bool → Except VErr Unit)
    (kvs : List (Value × Value)) (struct_name : String) (field : FieldDef) :
    Except VErr Unit :=
  match dictGetStr kvs field.name with
  | none =>
      if field.optional then .ok ()
      else .error (.missingRequiredField field.name struct_name)
  | some field_value =>
      if field_value.isNull then
        if field.optional then .ok ()
        else .error (.fieldNullNotAllowed field.name struct_name)
      else
        match vt field_value field.type field.optional with
        | .ok _ => .ok ()
        | .error e => .error (.fieldFailed field.name struct_name e)

/-- The `for field in fields` loop of `validate_struct`: sequence the
per-field checks, aborting on the first failure (exception
propagation). -/
def validate_fields (vt : Value → TypeDef → Bool → Except VErr Unit)
    (kvs : List (Value × Value)) (struct_name : String) :
    List FieldDef → Except VErr Unit
  | [] => .ok ()
  | field :: rest =>
      match checkField vt kvs struct_name field with
      | .ok _ => validate_fields vt kvs struct_name rest
      | .error e => .error e

/-- `validate_struct`: `isinstance(value, dict)`, then resolve the full
field list via `get_struct_fields` and run the field loop.  `struct_def`
is passed by the source but unused in its body; `vt` stands for the
global `validate_type` the source's field-validator closures capture. -/
def validate_struct (fuel : Nat) (vt : Value → TypeDef → Bool → Except VErr Unit)
    (value : Value) (struct_name : String) (struct_def : StructDef)
    (all_structs : List (String × StructDef)) : Except VErr Unit :=
  match struct_def with
  | _ =>
    match value with
    | .vdict kvs =>
        validate_fields vt kvs struct_name (get_struct_fields fuel struct_name all_structs)
    | _ => .error (.structNotDict struct_name)

/-- `validate_type`: `None` handling first (success iff `is_optional`),
then dispatch on the populated key of the type definition in source
order (`builtIn` with kind compared against the four known names, then
`array`, `mapValue`, `userDefined`, else invalid).  Array elements and
map values recurse with `is_optional = False`; a `userDefined` name is
resolved against structs first, then enums, else it is an unknown type.
Python's `elif type_def.get('userDefined'):` is a truthiness test, so an
empty-string name falls through to the invalid-type branch. -/
def validate_type (fuel : Nat) (value : Value) (type_def : TypeDef)
    (all_structs : List (String × StructDef)) (all_enums : List (String × EnumDef))
    (is_optional : Bool) : Except VErr Unit :=
  match fuel with
  | 0 => .error .outOfFuel
  | fuel + 1 =>
    if value.isNull then
      if is_optional then .ok () else .error .noneNotAllowed
    else
      match type_def with
      | .builtin kind =>
          if kind = "string" then validate_string value
          else if kind = "int" then validate_int value
          else if kind = "float" then validate_float value
          else if kind = "bool" then validate_bool value
          else .error .invalidTypeDef
      | .array element_type =>
          validate_array value
            (fun v => validate_type fuel v element_type all_structs all_enums false)
      | .map value_type =>
          validate_map value
            (fun v => validate_type fuel v value_type all_structs all_enums false)
      | .userDefined user_type =>
          if user_type = "" then .error .invalidTypeDef
          else
            match find_struct user_type all_structs with
            | some struct_def =>
                validate_struct fuel
                  (fun v ty opt => validate_type fuel v ty all_structs all_enums opt)
                  value user_type struct_def all_structs
            | none =>
                match find_enum user_type all_enums with
                | some enum_def =>
                    validate_enum value user_type (enum_def.values.map EnumValue.name)
                | none => .error (.unknownUserDefined user_type)

/-! ### Schema-resolver lemmas and claims -/

/-- The spec's description of one step of field accumulation, in its own
words: "if its name is not already present in the accumulated list,
append it; if it is present, replace the existing entry in place (same
positional slot) with the child's FieldDef". -/
def specAddField (acc : List FieldDef) (field : FieldDef) : List FieldDef :=
  if (acc.map FieldDef.name).contains field.name then
    acc.set ((acc.map FieldDef.name).findIdx (fun n => n == field.name)) field
  else acc ++ [field]

theorem replaceFirst_eq_set (field : FieldDef) :
    ∀ fields : List FieldDef,
      replaceFirst fields field
        = fields.set ((fields.map FieldDef.name).findIdx (fun n => n == field.name)) field := by
  intro fields
  induction fields with
  | nil => rfl
  | cons f rest ih =>
      by_cases h : f.name == field.name
      · simp [replaceFirst, h, List.findIdx_cons]
      · simp only [replaceFirst, h, List.map_cons, List.findIdx_cons, if_neg]
        simp only [Bool.not_eq_true] at h
        simp [h, ih]

theorem contains_name_eq_any (field : FieldDef) :
    ∀ acc : List FieldDef,
      (acc.map FieldDef.name).contains field.name
        = acc.any (fun f => f.name == field.name) := by
  intro acc
  induction acc with
  | nil => rfl
  | cons f rest ih =>
      simp only [List.map_cons, List.contains_cons, List.any_cons, ih]
      congr 1
      by_cases h : field.name = f.name
      · simp [h]
      · simp [h, Ne.symm h]

theorem addField_eq_specAddField (acc : List FieldDef) (field : FieldDef) :
    addField acc field = specAddField acc field := by
  rw [addField, specAddField, contains_name_eq_any]
  by_cases h : acc.any (fun f => f.name == field.name)
  · simp [h, replaceFirst_eq_set]
  · simp [h]

theorem foldl_addField_eq_spec (l : List FieldDef) :
    ∀ acc : List FieldDef, l.foldl addField acc = l.foldl specAddField acc := by
  induction l with
  | nil => intro acc; rfl
  | cons f rest ih => intro acc; simp [List.foldl_cons, addField_eq_specAddField, ih]

theorem get_struct_fields_succ (fuel : Nat) (struct_name : String)
    (ss : List (String × StructDef)) (sd : StructDef)
    (h : find_struct struct_name ss = some sd) :
    get_struct_fields (fuel + 1) struct_name ss
      = sd.fields.foldl addField (parent_fields fuel sd ss) := by
  simp [get_struct_fields, h, parent_fields]

def c1IdField : FieldDef := { name := "id", type := .builtin "string", optional := false }

def c1NameField : FieldDef := { name := "name", type := .builtin "string", optional := false }

def c1User : StructDef := { extendsName := some "Base", fields := [c1NameField] }

def c1Structs : List (String × StructDef) :=
  [("Base", { extendsName := none, fields := [c1IdField] }), ("User", c1User)]

/-- C1: for every schema and struct name, the resolved field list is the
parent's resolved fields (following the extends chain) folded through
the spec's append-or-override-in-place step, one field of the struct's
own declaration list at a time in order; and for `Base.fields = [id]`,
`User extends Base` with `fields = [name]`, resolving `User` yields
`[id, name]` in that order. -/
theorem c1_resolved_fields_override (fuel : Nat) (struct_name : String)
    (ss : List (String × StructDef)) (sd : StructDef)
    (h : find_struct struct_name ss = some sd) :
    get_struct_fields (fuel + 1) struct_name ss
      = sd.fields.foldl specAddField (parent_fields fuel sd ss)
    ∧ get_struct_fields 2 "User" c1Structs = [c1IdField, c1NameField] := by
  refine ⟨?_, rfl⟩
  rw [get_struct_fields_succ fuel struct_name ss sd h, foldl_addField_eq_spec]

/-- Witness for C1 at the `Base`/`User` schema. -/
theorem c1_resolved_fields_override_witness :
    (get_struct_fields 2 "User" c1Structs
      = c1User.fields.foldl specAddField (parent_fields 1 c1User c1Structs))
    ∧ get_struct_fields 2 "User" c1Structs = [c1IdField, c1NameField] :=
  c1_resolved_fields_override 1 "User" c1Structs c1User rfl

theorem replaceFirst_map_name (field : FieldDef) :
    ∀ fields : List FieldDef,
      fields.any (fun f => f.name == field.name) = true →
      (replaceFirst fields field).map FieldDef.name = fields.map FieldDef.name := by
  intro fields
  induction fields with
  | nil => intro h; cases h
  | cons f rest ih =>
      intro h
      by_cases hf : (f.name == field.name) = true
      · simp [replaceFirst, hf, (eq_of_beq hf).symm]
      · have hrest : rest.any (fun g => g.name == field.name) = true := by
          simpa [List.any_cons, hf] using h
        simp [replaceFirst, hf, ih hrest]

theorem not_mem_names_of_not_any (field : FieldDef) (fields : List FieldDef)
    (h : fields.any (fun f => f.name == field.name) = false) :
    field.name ∉ fields.map FieldDef.name := by
  simp only [List.any_eq_false, beq_iff_eq] at h
  simp only [List.mem_map, not_exists]
  intro f hcontra
  exact h f hcontra.1 hcontra.2

theorem nodup_names_addField (field : FieldDef) (fields : List FieldDef)
    (h : (fields.map FieldDef.name).Nodup) :
    ((addField fields field).map FieldDef.name).Nodup := by
  by_cases ha : fields.any (fun f => f.name == field.name) = true
  · rw [addField, if_pos ha, replaceFirst_map_name field fields ha]
    exact h
  · rw [addField, if_neg ha]
    rw [Bool.not_eq_true] at ha
    have hnm := not_mem_names_of_not_any field fields ha
    simp [List.nodup_append, h, hnm]

theorem nodup_names_foldl_addField :
    ∀ (l : List FieldDef) (acc : List FieldDef),
      (acc.map FieldDef.name).Nodup →
      ((l.foldl addField acc).map FieldDef.name).Nodup
  | [], _, h => h
  | f :: rest, acc, h =>
      nodup_names_foldl_addField rest (addField acc f) (nodup_names_addField f acc h)

theorem get_struct_fields_names_nodup :
    ∀ (fuel : Nat) (struct_name : String) (ss : List (String × StructDef)),
      ((get_struct_fields fuel struct_name ss).map FieldDef.name).Nodup := by
  intro fuel
  induction fuel with
  | zero => intro n ss; simp [get_struct_fields]
  | succ fuel ih =>
      intro n ss
      cases h : find_struct n ss with
      | none => simp [get_struct_fields, h]
      | some sd =>
          rw [get_struct_fields_succ fuel n ss sd h]
          apply nodup_names_foldl_addField
          cases hext : sd.extendsName with
          | none => simp [parent_fields, hext]
          | some p =>
              by_cases hp : p = ""
              · simp [parent_fields, hext, hp]
              · simp [parent_fields, hext, hp, ih]

def c10Structs : List (String × StructDef) :=
  [("S", { extendsName := none,
           fields := [{ name := "id", type := .builtin "string", optional := false },
                      { name := "id", type := .builtin "int", optional := false }] })]

/-- C10: for every schema and struct name, each field name occurs at
most once in the resolved field list; and a struct that itself declares
two fields named `id` resolves to a single `id` entry carrying the
later declaration. -/
theorem c10_resolved_names_unique :
    (∀ (fuel : Nat) (struct_name : String) (ss : List (String × StructDef)),
        ((get_struct_fields fuel struct_name ss).map FieldDef.name).Nodup)
    ∧ get_struct_fields 1 "S" c10Structs
        = [{ name := "id", type := .builtin "int", optional := false }] :=
  ⟨get_struct_fields_names_nodup, rfl⟩

theorem foldl_addField_of_fresh :
    ∀ (l : List FieldDef) (acc : List FieldDef),
      (∀ f ∈ l, acc.any (fun g => g.name == f.name) = false) →
      ((l.map FieldDef.name)).Nodup →
      l.foldl addField acc = acc ++ l := by
  intro l
  induction l with
  | nil => intro acc _ _; simp
  | cons f rest ih =>
      intro acc hfresh hnodup
      have hf : acc.any (fun g => g.name == f.name) = false := hfresh f (by simp)
      have hstep : addField acc f = acc ++ [f] := by simp [addField, hf]
      have hnodup2 : ((rest.map FieldDef.name)).Nodup := by
        simp only [List.map_cons, List.nodup_cons] at hnodup
        exact hnodup.2
      have hfresh2 : ∀ g ∈ rest, (acc ++ [f]).any (fun x => x.name == g.name) = false := by
        intro g hg
        rw [List.any_append, hfresh g (by simp [hg])]
        simp only [List.any_cons, List.any_nil, Bool.false_or, Bool.or_false]
        have hne : f.name ≠ g.name := by
          simp only [List.map_cons, List.nodup_cons, List.mem_map, not_exists] at hnodup
          intro heq
          exact hnodup.1 g ⟨hg, heq.symm⟩
        simp [hne]
      rw [List.foldl_cons, hstep, ih (acc ++ [f]) hfresh2 hnodup2]
      simp

def c9U : StructDef :=
  { extendsName := some "Nope",
    fields := [{ name := "a", type := .builtin "int", optional := false }] }

def c9Structs : List (String × StructDef) := [("U", c9U)]

/-- C9: resolving the fields of a struct name absent from the schema
yields the empty list (no error), and a struct whose `extends` names a
non-existent parent resolves to exactly its own declared fields, the
parent's fields being silently missing. -/
theorem c9_lenient_resolution :
    (∀ (fuel : Nat) (struct_name : String) (ss : List (String × StructDef)),
        find_struct struct_name ss = none → get_struct_fields fuel struct_name ss = [])
    ∧ (∀ (fuel : Nat) (struct_name p : String) (ss : List (String × StructDef)) (sd : StructDef),
        find_struct struct_name ss = some sd → sd.extendsName = some p → p ≠ "" →
        find_struct p ss = none → ((sd.fields.map FieldDef.name)).Nodup →
        get_struct_fields (fuel + 2) struct_name ss = sd.fields) := by
  constructor
  · intro fuel n ss h
    cases fuel with
    | zero => rfl
    | succ fuel => simp [get_struct_fields, h]
  · intro fuel n p ss sd hfind hext hp hmiss hnodup
    rw [get_struct_fields_succ (fuel + 1) n ss sd hfind]
    have hparent : parent_fields (fuel + 1) sd ss = [] := by
      simp [parent_fields, hext, hp, get_struct_fields, hmiss]
    rw [hparent]
    simpa using foldl_addField_of_fresh sd.fields [] (fun f _ => rfl) hnodup

/-- Witness for C9: a missing struct name and the `U extends Nope`
schema with a non-existent parent. -/
theorem c9_lenient_resolution_witness :
    get_struct_fields 7 "Missing" c9Structs = []
    ∧ get_struct_fields 7 "U" c9Structs = c9U.fields :=
  ⟨c9_lenient_resolution.1 7 "Missing" c9Structs rfl,
   c9_lenient_resolution.2 5 "U" "Nope" c9Structs c9U rfl rfl (by decide) rfl (by decide)⟩

/-! ### Validator lemmas and claims -/

/-- C3: builtin(bool) validation succeeds exactly on booleans and an
integer is rejected by it; but builtin(int) validation accepts the
boolean `True` — Python's `bool` subclasses `int`, so the source's
`isinstance(value, int)` does not reject booleans as the claim
demands. -/
theorem c3_bool_int_checks :
    (∀ v : Value, validate_bool v = .ok () ↔ ∃ b, v = Value.vbool b)
    ∧ validate_bool (Value.vint 1) = .error .expectedBool
    ∧ validate_int (Value.vbool true) = .ok () := by
  refine ⟨fun v => ?_, rfl, rfl⟩
  cases v <;> simp [validate_bool]

/-- C4: validating the null value succeeds iff `is_optional` and
otherwise fails with the none-not-allowed error, uniformly in the type
reference — the null check precedes any dispatch on the type-definition
variant, so no primitive, array, map, struct or enum check is ever
reached for a null value. -/
theorem c4_null_before_dispatch :
    ∀ (fuel : Nat) (type_def : TypeDef) (ss : List (String × StructDef))
      (es : List (String × EnumDef)) (is_optional : Bool),
      validate_type (fuel + 1) Value.vnull type_def ss es is_optional
        = if is_optional then .ok () else .error .noneNotAllowed :=
  fun _ _ _ _ _ => rfl

/-- C6 counterexample: the float value 3.0 is an integral number (zero
fractional part, denominator 1), yet builtin(int) validation rejects
it — `isinstance(3.0, int)` is false in the source, so every float
fails int validation regardless of integrality. -/
theorem c6_integral_float_rejected :
    validate_int (Value.vfloat 3) = .error .expectedInt ∧ (3 : Rat).den = 1 :=
  ⟨rfl, rfl⟩

/-- C6 (amended): builtin(int) validation accepts every integer value
and rejects every float value, with or without a fractional part (3.14
fails), while builtin(float) validation accepts every integer and every
float (42 passes) — the int-to-float widening is one-directional. -/
theorem c6_int_float_widening :
    (∀ n : Int, validate_int (Value.vint n) = .ok ())
    ∧ (∀ q : Rat, validate_int (Value.vfloat q) = .error .expectedInt)
    ∧ (∀ n : Int, validate_float (Value.vint n) = .ok ())
    ∧ (∀ q : Rat, validate_float (Value.vfloat q) = .ok ())
    ∧ validate_int (Value.vfloat (314 / 100)) = .error .expectedInt
    ∧ validate_float (Value.vint 42) = .ok () :=
  ⟨fun _ => rfl, fun _ => rfl, fun _ => rfl, fun _ => rfl, rfl, rfl⟩

theorem validate_type_null_not_ok (fuel : Nat) (t : TypeDef)
    (ss : List (String × StructDef)) (es : List (String × EnumDef)) :
    validate_type fuel Value.vnull t ss es false ≠ .ok () := by
  cases fuel <;> simp [validate_type, Value.isNull]

theorem validate_elems_ok_iff (f : Value → Except VErr Unit) :
    ∀ (xs : List Value) (i : Nat),
      validate_elems f i xs = .ok () ↔ ∀ v ∈ xs, f v = .ok () := by
  intro xs
  induction xs with
  | nil => intro i; simp [validate_elems]
  | cons v rest ih =>
      intro i
      cases hf : f v with
      | ok u =>
          cases u
          simp [validate_elems, hf, ih (i + 1)]
      | error e => simp [validate_elems, hf]

theorem validate_map_items_ok_iff (f : Value → Except VErr Unit) :
    ∀ kvs : List (Value × Value),
      validate_map_items f kvs = .ok ()
        ↔ ∀ p ∈ kvs, (∃ s, p.1 = Value.vstr s) ∧ f p.2 = .ok () := by
  intro kvs
  induction kvs with
  | nil => simp [validate_map_items]
  | cons p rest ih =>
      obtain ⟨k, v⟩ := p
      cases k with
      | vstr s =>
          cases hf : f v with
          | ok u =>
              cases u
              simp [validate_map_items, hf, ih]
          | error e => simp [validate_map_items, hf]
      | vnull => simp [validate_map_items]
      | vbool b => simp [validate_map_items]
      | vint n => simp [validate_map_items]
      | vfloat q => simp [validate_map_items]
      | vlist xs => simp [validate_map_items]
      | vdict kvs2 => simp [validate_map_items]

/-- C7: array elements and map values are validated with
`is_optional = false`, so a null element inside an array, or a null
value inside a map, makes the whole validation fail regardless of the
collection's own optionality flag. -/
theorem c7_nested_null_always_fails :
    (∀ (fuel : Nat) (xs : List Value) (t : TypeDef) (ss : List (String × StructDef))
        (es : List (String × EnumDef)) (opt : Bool), Value.vnull ∈ xs →
        validate_type (fuel + 1) (Value.vlist xs) (TypeDef.array t) ss es opt ≠ .ok ())
    ∧ (∀ (fuel : Nat) (kvs : List (Value × Value)) (t : TypeDef)
        (ss : List (String × StructDef)) (es : List (String × EnumDef)) (opt : Bool)
        (k : Value), (k, Value.vnull) ∈ kvs →
        validate_type (fuel + 1) (Value.vdict kvs) (TypeDef.map t) ss es opt ≠ .ok ()) := by
  constructor
  · intro fuel xs t ss es opt hmem hok
    have h1 : validate_elems (fun v => validate_type fuel v t ss es false) 0 xs = .ok () := by
      simpa [validate_type, validate_array, Value.isNull] using hok
    exact validate_type_null_not_ok fuel t ss es
      ((validate_elems_ok_iff _ xs 0).mp h1 Value.vnull hmem)
  · intro fuel kvs t ss es opt k hmem hok
    have h1 : validate_map_items (fun v => validate_type fuel v t ss es false) kvs = .ok () := by
      simpa [validate_type, validate_map, Value.isNull] using hok
    exact validate_type_null_not_ok fuel t ss es
      (((validate_map_items_ok_iff _ kvs).mp h1 (k, Value.vnull) hmem).2)

/-- Witness for C7: a null element in a one-element array and a null
value in a one-entry map, both under an optional collection type. -/
theorem c7_nested_null_always_fails_witness :
    validate_type 1 (Value.vlist [Value.vnull]) (TypeDef.array (.builtin "int"))
        [] [] true ≠ .ok ()
    ∧ validate_type 1 (Value.vdict [(Value.vstr "k", Value.vnull)]) (TypeDef.map (.builtin "int"))
        [] [] true ≠ .ok () :=
  ⟨c7_nested_null_always_fails.1 0 [Value.vnull] (.builtin "int") [] [] true (by simp),
   c7_nested_null_always_fails.2 0 [(Value.vstr "k", Value.vnull)] (.builtin "int") [] [] true
     (Value.vstr "k") (by simp)⟩

/-- C8: map validation succeeds iff every entry has a string key and a
value that validates against the value type; a non-string key at the
head yields the key-type error whatever its value is; a failing value
under a string key is wrapped with that key; a non-dict, non-null value
fails with the dict type error. -/
theorem c8_map_validation :
    (∀ (fuel : Nat) (kvs : List (Value × Value)) (t : TypeDef)
        (ss : List (String × StructDef)) (es : List (String × EnumDef)) (opt : Bool),
        validate_type (fuel + 1) (Value.vdict kvs) (TypeDef.map t) ss es opt = .ok ()
          ↔ ∀ p ∈ kvs, (∃ s, p.1 = Value.vstr s)
              ∧ validate_type fuel p.2 t ss es false = .ok ())
    ∧ (∀ (fuel : Nat) (k v : Value) (rest : List (Value × Value)) (t : TypeDef)
        (ss : List (String × StructDef)) (es : List (String × EnumDef)) (opt : Bool),
        (∀ s, k ≠ Value.vstr s) →
        validate_type (fuel + 1) (Value.vdict ((k, v) :: rest)) (TypeDef.map t) ss es opt
          = .error .mapKeyNotString)
    ∧ (∀ (fuel : Nat) (s : String) (v : Value) (rest : List (Value × Value)) (t : TypeDef)
        (ss : List (String × StructDef)) (es : List (String × EnumDef)) (opt : Bool) (e : VErr),
        validate_type fuel v t ss es false = .error e →
        validate_type (fuel + 1) (Value.vdict ((Value.vstr s, v) :: rest)) (TypeDef.map t) ss es opt
          = .error (.mapValue s e))
    ∧ (∀ (fuel : Nat) (v : Value) (t : TypeDef) (ss : List (String × StructDef))
        (es : List (String × EnumDef)) (opt : Bool),
        v.isNull = false → (∀ kvs, v ≠ Value.vdict kvs) →
        validate_type (fuel + 1) v (TypeDef.map t) ss es opt = .error .expectedDict) := by
  refine ⟨?_, ?_, ?_, ?_⟩
  · intro fuel kvs t ss es opt
    exact validate_map_items_ok_iff (fun v => validate_type fuel v t ss es false) kvs
  · intro fuel k v rest t ss es opt hk
    cases k with
    | vstr s => exact absurd rfl (hk s)
    | vnull => rfl
    | vbool b => rfl
    | vint n => rfl
    | vfloat q => rfl
    | vlist xs => rfl
    | vdict kvs2 => rfl
  · intro fuel s v rest t ss es opt e hv
    simp [validate_type, validate_map, validate_map_items, Value.isNull, hv]
  · intro fuel v t ss es opt hnull hkvs
    cases v with
    | vnull => simp [Value.isNull] at hnull
    | vdict kvs => exact absurd rfl (hkvs kvs)
    | vbool b => rfl
    | vint n => rfl
    | vfloat q => rfl
    | vstr s => rfl
    | vlist xs => rfl

/-- Witness for C8 at the spec's own example `{123: "x"}` against
`map(string)`. -/
theorem c8_map_validation_witness :
    validate_type 1 (Value.vdict [(Value.vint 123, Value.vstr "x")])
      (TypeDef.map (.builtin "string")) [] [] false = .error .mapKeyNotString :=
  c8_map_validation.2.1 0 (Value.vint 123) (Value.vstr "x") [] (.builtin "string") [] [] false
    (fun _ h => nomatch h)

theorem dictGetStr_cons_ne (k : String) (v : Value) (kvs : List (Value × Value))
    (n : String) (h : k ≠ n) :
    dictGetStr ((Value.vstr k, v) :: kvs) n = dictGetStr kvs n := by
  simp [dictGetStr, h]

theorem checkField_extra_key (vt : Value → TypeDef → Bool → Except VErr Unit)
    (kvs : List (Value × Value)) (struct_name : String) (f : FieldDef)
    (k : String) (v : Value) (h : f.name ≠ k) :
    checkField vt ((Value.vstr k, v) :: kvs) struct_name f
      = checkField vt kvs struct_name f := by
  unfold checkField
  rw [dictGetStr_cons_ne k v kvs f.name (Ne.symm h)]

theorem validate_fields_extra_key (vt : Value → TypeDef → Bool → Except VErr Unit)
    (kvs : List (Value × Value)) (struct_name : String) (k : String) (v : Value) :
    ∀ fields : List FieldDef, (∀ f ∈ fields, f.name ≠ k) →
      validate_fields vt ((Value.vstr k, v) :: kvs) struct_name fields
        = validate_fields vt kvs struct_name fields := by
  intro fields
  induction fields with
  | nil => intro _; rfl
  | cons f rest ih =>
      intro h
      simp only [validate_fields, checkField_extra_key vt kvs struct_name f k v (h f (by simp))]
      cases checkField vt kvs struct_name f with
      | ok u => exact ih (fun g hg => h g (by simp [hg]))
      | error e => rfl

theorem validate_fields_ok_iff (vt : Value → TypeDef → Bool → Except VErr Unit)
    (kvs : List (Value × Value)) (struct_name : String) :
    ∀ fields : List FieldDef,
      validate_fields vt kvs struct_name fields = .ok ()
        ↔ ∀ f ∈ fields, checkField vt kvs struct_name f = .ok () := by
  intro fields
  induction fields with
  | nil => simp [validate_fields]
  | cons f rest ih =>
      cases hc : checkField vt kvs struct_name f with
      | ok u =>
          cases u
          simp [validate_fields, hc, ih]
      | error e => simp [validate_fields, hc]

def c2Structs : List (String × StructDef) :=
  [("User", { extendsName := none,
              fields := [{ name := "id", type := .builtin "string", optional := false },
                         { name := "email", type := .builtin "string", optional := true }] })]

/-- C2: struct validation of a dict value runs exactly the per-field
checks of the resolved field list: an absent key succeeds iff the field
is optional and otherwise gives the missing-required-field error; a key
present with the null value succeeds iff the field is optional and
otherwise gives the null-not-allowed error; a key not declared among
the fields never changes the outcome; validation of the whole struct
succeeds iff every resolved field's check succeeds; and concretely a
`User` value carrying an extra undeclared key still validates. -/
theorem c2_struct_field_checks :
    (∀ (fuel : Nat) (vt : Value → TypeDef → Bool → Except VErr Unit)
        (kvs : List (Value × Value)) (struct_name : String) (sd : StructDef)
        (ss : List (String × StructDef)),
        validate_struct fuel vt (Value.vdict kvs) struct_name sd ss
          = validate_fields vt kvs struct_name (get_struct_fields fuel struct_name ss))
    ∧ (∀ (vt : Value → TypeDef → Bool → Except VErr Unit) (kvs : List (Value × Value))
        (struct_name : String) (f : FieldDef), dictGetStr kvs f.name = none →
        checkField vt kvs struct_name f
          = if f.optional then .ok () else .error (.missingRequiredField f.name struct_name))
    ∧ (∀ (vt : Value → TypeDef → Bool → Except VErr Unit) (kvs : List (Value × Value))
        (struct_name : String) (f : FieldDef), dictGetStr kvs f.name = some Value.vnull →
        checkField vt kvs struct_name f
          = if f.optional then .ok () else .error (.fieldNullNotAllowed f.name struct_name))
    ∧ (∀ (vt : Value → TypeDef → Bool → Except VErr Unit) (kvs : List (Value × Value))
        (struct_name : String) (k : String) (v : Value) (fields : List FieldDef),
        (∀ f ∈ fields, f.name ≠ k) →
        validate_fields vt ((Value.vstr k, v) :: kvs) struct_name fields
          = validate_fields vt kvs struct_name fields)
    ∧ (∀ (vt : Value → TypeDef → Bool → Except VErr Unit) (kvs : List (Value × Value))
        (struct_name : String) (fields : List FieldDef),
        validate_fields vt kvs struct_name fields = .ok ()
          ↔ ∀ f ∈ fields, checkField vt kvs struct_name f = .ok ())
    ∧ validate_type 3
        (Value.vdict [(Value.vstr "id", Value.vstr "1"), (Value.vstr "extra", Value.vint 7)])
        (TypeDef.userDefined "User") c2Structs [] false = .ok () := by
  refine ⟨fun _ _ _ _ _ _ => rfl, ?_, ?_, validate_fields_extra_key, validate_fields_ok_iff, rfl⟩
  · intro vt kvs sn f h
    unfold checkField
    rw [h]
  · intro vt kvs sn f h
    unfold checkField
    rw [h]
    exact rfl

/-- Witness for C2: a required `id` field missing from an empty dict
value. -/
theorem c2_struct_field_checks_witness :
    checkField (fun _ _ _ => .ok ()) [] "User"
        { name := "id", type := .builtin "string", optional := false }
      = .error (.missingRequiredField "id" "User") :=
  c2_struct_field_checks.2.1 (fun _ _ _ => .ok ()) [] "User"
    { name := "id", type := .builtin "string", optional := false } rfl

def c5Structs : List (String × StructDef) :=
  [("Platform", { extendsName := none,
                  fields := [{ name := "x", type := .builtin "int", optional := false }] })]

def c5Enums : List (String × EnumDef) :=
  [("Platform", { values := [{ name := "kindle" }, { name := "nook" }] })]

/-- C5: a userDefined name is resolved against structs first, so a name
found among the structs is validated as a struct (the concrete conjunct
shows a name present in BOTH structs and enums being validated as a
struct, rejecting a string that would be a valid enum value); a name
found only among the enums succeeds exactly when the value is a string
equal to one of the enum's allowed values, so any non-string value
fails enum validation; a name found in neither fails with the
unknown-type schema error. -/
theorem c5_user_defined_resolution :
    (∀ (fuel : Nat) (v : Value) (name : String) (ss : List (String × StructDef))
        (es : List (String × EnumDef)) (opt : Bool) (sd : StructDef),
        v.isNull = false → name ≠ "" → find_struct name ss = some sd →
        validate_type (fuel + 1) v (TypeDef.userDefined name) ss es opt
          = validate_struct fuel (fun w ty o => validate_type fuel w ty ss es o) v name sd ss)
    ∧ (∀ (fuel : Nat) (v : Value) (name : String) (ss : List (String × StructDef))
        (es : List (String × EnumDef)) (opt : Bool) (ed : EnumDef),
        v.isNull = false → name ≠ "" → find_struct name ss = none → find_enum name es = some ed →
        (validate_type (fuel + 1) v (TypeDef.userDefined name) ss es opt = .ok ()
          ↔ ∃ s, v = Value.vstr s ∧ s ∈ ed.values.map EnumValue.name))
    ∧ (∀ (fuel : Nat) (v : Value) (name : String) (ss : List (String × StructDef))
        (es : List (String × EnumDef)) (opt : Bool),
        v.isNull = false → name ≠ "" → find_struct name ss = none → find_enum name es = none →
        validate_type (fuel + 1) v (TypeDef.userDefined name) ss es opt
          = .error (.unknownUserDefined name))
    ∧ validate_type 3 (Value.vstr "kindle") (TypeDef.userDefined "Platform") c5Structs c5Enums false
        = .error (.structNotDict "Platform") := by
  refine ⟨?_, ?_, ?_, rfl⟩
  · intro fuel v name ss es opt sd hnull hname hfind
    simp [validate_type, hnull, hname, hfind]
  · intro fuel v name ss es opt ed hnull hname hfind hfenum
    have hval : validate_type (fuel + 1) v (TypeDef.userDefined name) ss es opt
        = validate_enum v name (ed.values.map EnumValue.name) := by
      simp [validate_type, hnull, hname, hfind, hfenum]
    rw [hval]
    cases v with
    | vnull => simp [Value.isNull] at hnull
    | vstr s =>
        rw [validate_enum]
        by_cases hc : (ed.values.map EnumValue.name).contains s = true
        · simp [hc]
        · have hcf : (ed.values.map EnumValue.name).contains s = false := by simpa using hc
          simp [hcf]
    | vbool b => simp [validate_enum]
    | vint n => simp [validate_enum]
    | vfloat q => simp [validate_enum]
    | vlist xs => simp [validate_enum]
    | vdict kvs => simp [validate_enum]
  · intro fuel v name ss es opt hnull hname hfind hfenum
    simp [validate_type, hnull, hname, hfind, hfenum]

/-- Witness for C5: the integer 7 against the `Platform` enum (a
non-string value, so no allowed-values membership can make it pass),
and an unknown userDefined name against an empty schema. -/
theorem c5_user_defined_resolution_witness :
    (validate_type 1 (Value.vint 7) (TypeDef.userDefined "Platform") [] c5Enums false = .ok ()
      ↔ ∃ s, Value.vint 7 = Value.vstr s
          ∧ s ∈ (EnumDef.values { values := [{ name := "kindle" }, { name := "nook" }] }).map
              EnumValue.name)
    ∧ validate_type 1 (Value.vint 5) (TypeDef.userDefined "X") [] [] false
        = .error (.unknownUserDefined "X") :=
  ⟨c5_user_defined_resolution.2.1 0 (Value.vint 7) "Platform" [] c5Enums false
      { values := [{ name := "kindle" }, { name := "nook" }] } rfl (by decide) rfl rfl,
   c5_user_defined_resolution.2.2.1 0 (Value.vint 5) "X" [] [] false rfl (by decide) rfl rfl⟩
